import Mathlib

/-!
Verification of the routing/orchestration core of the multi-agent repository.

The definitions below are a shallow embedding of:
  * `agents/supervisor.py` (`supervisor_node`, the Router),
  * `graph/graph_builder.py` (`build_graph`, node registry and conditional edges),
  * `dispatcher/event_dispatcher.py` (`EventDispatcher.__init__` and `dispatch`),
  * `event_types.py` (`EventType`, `CommunicationType`).

Python dictionaries carrying the graph state are modelled as the record
`AgentState`; the external LLM classifier is modelled as an oracle function
producing the four outcomes the Router code can observe; Python exceptions
are modelled with `Except String`.
-/

/-- Helper. Python `needle in haystack` substring test, on explicit
character lists. -/
def containsSub (needle : List Char) : List Char → Bool
  | [] => needle.isEmpty
  | c :: rest => needle.isPrefixOf (c :: rest) || containsSub needle rest

/-- Helper. Python `str.lower()` (the repository only lowercases ASCII
content). -/
def lowerStr (s : String) : String := ⟨s.data.map Char.toLower⟩

/-- Python `CommunicationType` enum from `event_types.py`. -/
inductive CommunicationType where
  | ASYNC_QUEUE
  | DIRECT_API
deriving DecidableEq, Repr

/-- A LangChain message as the Router observes it: an optional `name`
attribute (absent or `None` is modelled as `none`) and a `content` string. -/
structure Message where
  name : Option String
  content : String
deriving DecidableEq, Repr

/-- The graph state dictionary (`AgentState` in `graph_builder.py`): the
message history, the routing target `next` (a Python string or `None`),
and the `communication_type` entry (absent is modelled as `none`). -/
structure AgentState where
  messages : List Message
  next : Option String
  communication_type : Option CommunicationType
deriving DecidableEq, Repr

/-- The parsed arguments of the `route` function call:
`args.get("next")` and `args.get("answer")`. -/
structure RouteArgs where
  next : Option String
  answer : Option String
deriving DecidableEq, Repr

/-- The four outcomes `supervisor_node` can observe from the raw LLM call:
no `function_call` entry (or a falsy one), a `function_call` without an
`arguments` key, an `arguments` payload on which `json.loads` raises, or a
successfully parsed argument object. -/
inductive FunctionCallResult where
  | absent
  | noArguments
  | badJson
  | args (a : RouteArgs)
deriving DecidableEq, Repr

/-- `members` from `agents/supervisor.py` line 14. -/
def members : List String :=
  ["customer_support", "sales_manager", "technical_support", "diagnostic_agent"]

/-- `options = ["FINISH"] + members` from `agents/supervisor.py` line 49. -/
def options : List String := "FINISH" :: members

/-- Python `hasattr(msg, "name") and msg.name in members`. -/
def isMemberName (n : Option String) : Bool :=
  match n with
  | some s => members.contains s
  | none => false

/-- The predicate of the loop-prevention generator expression
(`agents/supervisor.py` line 99): a handler-authored message whose content
is exactly the declined sentinel. -/
def isNotMeFromMember (m : Message) : Bool :=
  isMemberName m.name && (m.content == "NOT_ME")

/-- `not_me_count` from `agents/supervisor.py` line 99. -/
def notMeCount (msgs : List Message) : Nat :=
  msgs.countP isNotMeFromMember

/-- The agent-handoff test of `agents/supervisor.py` lines 92 and 93: the
message is authored by a member and its lowercased content contains the
literal marker `next: diagnostic_agent`. -/
def hasHandoff (m : Message) : Bool :=
  isMemberName m.name &&
    containsSub "next: diagnostic_agent".data (lowerStr m.content).data

/-- `message_history = 5` from `agents/supervisor.py` line 109. -/
def message_history : Nat := 5

/-- The truncation of `agents/supervisor.py` lines 110 and 111:
`state["messages"] = state["messages"][-message_history:]` when the history
is longer than the window. -/
def truncateMessages (msgs : List Message) : List Message :=
  if msgs.length > message_history then msgs.drop (msgs.length - message_history)
  else msgs

/-- Helper. Python `str.strip()`: remove leading and trailing whitespace. -/
def stripStr (s : String) : String :=
  ⟨((s.data.dropWhile Char.isWhitespace).reverse.dropWhile Char.isWhitespace).reverse⟩

/-- The message constructor `type(state["messages"][0])(content=..., name=...)`. -/
def mkMsg (content name : String) : Message := ⟨some name, content⟩

/-- The canned apology of `agents/supervisor.py` line 102. -/
def outOfScopeApology : String :=
  "I\x27m sorry, but your request is outside the scope of our available services."

/-- The generic failure message of `agents/supervisor.py` line 119. -/
def couldNotUnderstand : String :=
  "Sorry, I couldn\x27t understand the request."

/-- Shallow embedding of `supervisor_node` (`agents/supervisor.py` lines
89 to 137). `classify` is the oracle for
`(prompt | llm.bind(...)).invoke(state)` followed by the extraction of
`additional_kwargs["function_call"]` and `json.loads` on its arguments;
it is applied to the state the code passes to `invoke`, i.e. after the
destructive truncation of the `messages` entry. Exceptions escaping the
function (`IndexError` on an empty history, `json.JSONDecodeError` from
`json.loads`) are modelled as `Except.error`. -/
def supervisor_node (classify : AgentState → FunctionCallResult)
    (state : AgentState) : Except String AgentState :=
  match state.messages.getLast? with
  | none => .error "IndexError: list index out of range"
  | some last =>
    if hasHandoff last then
      .ok { state with next := some "diagnostic_agent" }
    else if notMeCount state.messages ≥ members.length then
      .ok { state with
            next := some "FINISH",
            messages := state.messages ++ [mkMsg outOfScopeApology "supervisor"] }
    else
      let msgs := truncateMessages state.messages
      let state1 : AgentState := { state with messages := msgs }
      match classify state1 with
      | .absent =>
          .ok { state1 with
                next := some "FINISH",
                messages := msgs ++ [mkMsg couldNotUnderstand "supervisor"] }
      | .noArguments =>
          .ok { state1 with
                next := some "FINISH",
                messages := msgs ++ [mkMsg couldNotUnderstand "supervisor"] }
      | .badJson => .error "json.decoder.JSONDecodeError"
      | .args a =>
          let answer := stripStr (a.answer.getD "")
          if answer ≠ "" then
            .ok { state1 with
                  messages := msgs ++ [mkMsg answer "supervisor"],
                  next := some "FINISH" }
          else
            .ok { state1 with
                  next := a.next,
                  messages := msgs,
                  communication_type := some CommunicationType.DIRECT_API }

/-- The agent node names registered by `build_graph`
(`graph/graph_builder.py`): the keys of `conditional_map` other than
`FINISH`, each of which is also the `name` given to the corresponding
`agent_node`. Note the misspelled `tachnical_support`. -/
def graphAgents : List String :=
  ["customer_support", "sales_manager", "tachnical_support"]

/-- One handler turn under the hypothesis of the bounded-termination
property: the agent node registered under `name` declines, appending the
message `HumanMessage(content="NOT_ME", name=name)` that `agent_node`
returns (appended by the `operator.add` channel of `AgentState`). -/
def handlerDecline (name : String) (s : AgentState) : AgentState :=
  { s with messages := s.messages ++ [⟨some name, "NOT_ME"⟩] }

/-- Outcome of iterating the routing loop of `build_graph`:
the conversation finished (`next = FINISH` routed to `END`), an exception
escaped the supervisor, the conditional edge received a target that is not
a key of `conditional_map` (LangGraph raises), or the fuel ran out with
the conversation still going. Each outcome records the number of routing
steps (supervisor invocations) taken. -/
inductive RunOutcome where
  | finished (s : AgentState) (steps : Nat)
  | raised (e : String) (steps : Nat)
  | invalidTarget (t : Option String) (steps : Nat)
  | running (s : AgentState) (steps : Nat)
deriving DecidableEq, Repr

/-- Boolean test for the still-running outcome. -/
def RunOutcome.isRunning : RunOutcome → Bool
  | .running _ _ => true
  | _ => false

/-- The routing loop of `build_graph` under the decline-only handler
hypothesis: the supervisor runs (entry point), its `next` is routed
through `conditional_map` (`FINISH ↦ END`, each graph agent to its node,
anything else is an invalid edge), the chosen agent declines, and the
edge `member → supervisor` loops back. -/
def runConversation (classify : AgentState → FunctionCallResult) :
    Nat → Nat → AgentState → RunOutcome
  | 0, steps, s => .running s steps
  | fuel + 1, steps, s =>
    match supervisor_node classify s with
    | .error e => .raised e (steps + 1)
    | .ok s1 =>
      if s1.next = some "FINISH" then .finished s1 (steps + 1)
      else
        match s1.next with
        | some t =>
          if graphAgents.contains t then
            runConversation classify fuel (steps + 1) (handlerDecline t s1)
          else .invalidTarget (some t) (steps + 1)
        | none => .invalidTarget none (steps + 1)

/-- Python `EventType` enum from `event_types.py`. -/
inductive EventType where
  | TICKET_CREATE
  | TICKET_STATE_UPDATE
  | TICKET_UPDATE
  | TICKET_DELETE
  | TICKET_CLOSE
  | TICKET_RESOLUTION_ESTIMATION
  | OPPORTUNITY_CREATE
  | OPPORTUNITY_STATE_UPDATE
  | OPPORTUNITY_RESOLVE
  | OPPORTUNITY_UPDATE
  | OPPORTUNITY_LOST
  | OPPORTUNITY_DELETE
  | CUSTOMER_UPDATE
deriving DecidableEq, Repr

/-- The method names defined in the body of class `EventDispatcher`
(`dispatcher/event_dispatcher.py`): the attributes `self.<name>` can
resolve to. -/
def definedDispatcherMethods : List String :=
  ["dispatch",
   "handle_email_notification",
   "handle_ticket_create_agent",
   "handle_ticket_update_agent",
   "handle_ticket_state_update_agent",
   "handle_ticket_close_agent",
   "handle_ticket_delete_agent",
   "handle_opportunity_create_agent",
   "handle_opportunity_state_update_agent",
   "handle_opportunity_update_agent",
   "handle_opportunity_resolve_agent",
   "handle_opportunity_lost_agent",
   "handle_opportunity_delete_agent",
   "handle_default"]

/-- The `self.routes` dictionary literal of `EventDispatcher.__init__`,
entry by entry in source order, with the exact attribute names the code
references. -/
def routesLiteral : List (EventType × List String) :=
  [(.TICKET_CREATE, ["handle_ticket_create_agent", "handle_email_notification"]),
   (.TICKET_STATE_UPDATE, ["handle_ticket_state_update_agent", "handle_email_notification"]),
   (.TICKET_UPDATE, ["handle_ticket_update_agentm", "handle_email_notification"]),
   (.TICKET_CLOSE, ["handle_ticket_close_agent", "handle_email_notification"]),
   (.TICKET_DELETE, ["handle_ticket_delete_agentm", "handle_email_notification"]),
   (.OPPORTUNITY_CREATE, ["handle_opportunity_create_agent", "handle_email_notification"]),
   (.OPPORTUNITY_STATE_UPDATE, ["handle_opportunity_state_update_agent", "handle_email_notification"]),
   (.OPPORTUNITY_UPDATE, ["handle_opportunity_update_agent", "handle_email_notification"]),
   (.OPPORTUNITY_RESOLVE, ["handle_opportunity_resolve_agent", "handle_email_notification"]),
   (.OPPORTUNITY_LOST, ["handle_opportunity_lost_agent", "handle_email_notification"]),
   (.OPPORTUNITY_DELETE, ["handle_opportunity_delete_agentm", "handle_email_notification"])]

/-- Attribute resolution for one list of handler names, in order: the
first name that is not a defined method raises `AttributeError` carrying
that name. -/
def resolveMethodList : List String → Except String (List String)
  | [] => .ok []
  | n :: rest =>
    if definedDispatcherMethods.contains n then
      (resolveMethodList rest).map (fun ns => n :: ns)
    else .error n

/-- Evaluation of the `self.routes` dictionary literal during
`EventDispatcher.__init__`: every referenced attribute is resolved in
source order; the first unresolvable one raises `AttributeError`. -/
def initRoutesTable : List (EventType × List String) →
    Except String (List (EventType × List String))
  | [] => .ok []
  | (e, ns) :: rest =>
    match resolveMethodList ns with
    | .error n => .error n
    | .ok ns1 => (initRoutesTable rest).map (fun t => (e, ns1) :: t)

/-- `EventDispatcher.__init__` building `self.routes`. -/
def eventDispatcherInit : Except String (List (EventType × List String)) :=
  initRoutesTable routesLiteral

/-- `EventDispatcher.dispatch`: `self.routes.get(event_type,
[self.handle_default])`, invoked in list order; the returned list is the
exact sequence of handler invocations one dispatch call performs. -/
def dispatchHandlers (routes : List (EventType × List String))
    (event_type : EventType) : List String :=
  match routes.find? (fun p => p.fst == event_type) with
  | some p => p.snd
  | none => ["handle_default"]

/-- Modelled from the spec: the number of distinct registered handlers
that have a message in history whose content is their declined sentinel
(spec section 8, loop-count invariant). This is the specification-side
counterpart of `notMeCount` and is deliberately written from the spec
wording, not from the code. -/
def distinctDeclinedHandlers (msgs : List Message) : Nat :=
  members.countP (fun h => msgs.any (fun m => m.name == some h && m.content == "NOT_ME"))

/-- The condition under which `supervisor_node` takes its final branch
(classifier delegation with an empty stripped answer): derived branch
predicate used to state the frame effect on `communication_type`. -/
def delegationTaken (classify : AgentState → FunctionCallResult)
    (state : AgentState) : Bool :=
  match state.messages.getLast? with
  | none => false
  | some last =>
    !hasHandoff last &&
    decide (notMeCount state.messages < members.length) &&
    (match classify { state with messages := truncateMessages state.messages } with
     | .args a => stripStr (a.answer.getD "") == ""
     | _ => false)

/-- A minimal one-message conversation state. -/
def stateHi : AgentState := ⟨[⟨none, "hi"⟩], none, none⟩

/-- A history in which each of the four members has declined once and the
most recent message is a handler-authored routing instruction. -/
def exhaustedHandoffState : AgentState :=
  ⟨[⟨some "customer_support", "NOT_ME"⟩,
    ⟨some "sales_manager", "NOT_ME"⟩,
    ⟨some "technical_support", "NOT_ME"⟩,
    ⟨some "diagnostic_agent", "NOT_ME"⟩,
    ⟨some "technical_support", "next: diagnostic_agent"⟩], none, none⟩

/-- A history in which each of the four members has declined once and the
most recent message is an ordinary user message. -/
def exhaustedState : AgentState :=
  ⟨[⟨some "customer_support", "NOT_ME"⟩,
    ⟨some "sales_manager", "NOT_ME"⟩,
    ⟨some "technical_support", "NOT_ME"⟩,
    ⟨some "diagnostic_agent", "NOT_ME"⟩,
    ⟨none, "please help"⟩], none, none⟩

/-- One handler declining five times. -/
def repeatDecline : List Message :=
  List.replicate 5 ⟨some "customer_support", "NOT_ME"⟩

/-- A six-message history, one more than the truncation window. -/
def longState : AgentState :=
  ⟨[⟨none, "m0"⟩, ⟨none, "m1"⟩, ⟨none, "m2"⟩, ⟨none, "m3"⟩,
    ⟨none, "m4"⟩, ⟨none, "m5"⟩], none, none⟩

/-- A conversation created in the asynchronous communication mode. -/
def asyncState : AgentState := ⟨[⟨none, "hi"⟩], none, some .ASYNC_QUEUE⟩

/-- A handler-authored last message carrying a routing instruction naming
a peer other than the diagnostic agent. -/
def handoffOther : AgentState :=
  ⟨[⟨none, "issue"⟩, ⟨some "technical_support", "next: sales_manager"⟩], none, none⟩

/-- A handler-authored last message carrying the diagnostic-agent
routing marker. -/
def diagState : AgentState :=
  ⟨[⟨some "technical_support", "I need help. next: diagnostic_agent"⟩], none, none⟩

/-- C1: the claim states that whenever the member-authored `NOT_ME`
messages number at least `|members|`, one Router call returns FINISH with
one apology appended, regardless of the content of the most recent
message. Counterexample: with four declines already in history but a
handler-authored last message carrying the `next: diagnostic_agent`
marker, the agent-handoff branch runs first and the Router delegates to
`diagnostic_agent` with no message appended. -/
theorem c1_handoff_preempts_loop_check :
    notMeCount exhaustedHandoffState.messages ≥ members.length ∧
    supervisor_node (fun _ => .absent) exhaustedHandoffState =
      .ok { exhaustedHandoffState with next := some "diagnostic_agent" } ∧
    some "diagnostic_agent" ≠ some "FINISH" :=
  ⟨by decide, rfl, by decide⟩

/-- C1 (amended): if additionally the most recent message does not trigger
the agent-handoff branch, then one Router call returns FINISH with exactly
one supervisor-authored apology appended, and the result does not depend
on the classifier (the right-hand side never mentions it). -/
theorem c1_loop_exhaustion_finish
    (classify : AgentState → FunctionCallResult) (state : AgentState)
    (last : Message)
    (hl : state.messages.getLast? = some last)
    (hh : hasHandoff last = false)
    (hc : notMeCount state.messages ≥ members.length) :
    supervisor_node classify state =
      .ok { state with
            next := some "FINISH",
            messages := state.messages ++ [mkMsg outOfScopeApology "supervisor"] } := by
  unfold supervisor_node
  rw [hl]
  simp [hh, hc]

/-- C1 witness: the amended theorem applied at a concrete exhausted state,
with a classifier that would raise if it were consulted. -/
theorem c1_loop_exhaustion_finish_witness :
    supervisor_node (fun _ => .badJson) exhaustedState =
      .ok { exhaustedState with
            next := some "FINISH",
            messages := exhaustedState.messages ++ [mkMsg outOfScopeApology "supervisor"] } :=
  c1_loop_exhaustion_finish (fun _ => .badJson) exhaustedState
    ⟨none, "please help"⟩ rfl (by decide) (by decide)

/-- C2: bounded termination fails on the code. With the classifier
delegating to `technical_support` (a value of the declared option list and
of the member registry), the conditional edge map of `build_graph` has no
such key — the node was registered as `tachnical_support` — so the graph
raises at the first routing step and FINISH is never produced. And if the
classifier names the actual node `tachnical_support`, its declines are
authored under that name, which the member list never tallies, so six
routing steps (more than `|members| + 1 = 5`) pass with the conversation
still running. -/
theorem c2_bounded_termination_fails :
    runConversation (fun _ => .args ⟨some "technical_support", some ""⟩) 6 0 stateHi =
      .invalidTarget (some "technical_support") 1 ∧
    (runConversation (fun _ => .args ⟨some "tachnical_support", some ""⟩) 6 0 stateHi).isRunning
      = true :=
  ⟨rfl, rfl⟩

/-- C9: the routing table of `EventDispatcher.__init__` references the
attributes `handle_ticket_update_agentm`, `handle_ticket_delete_agentm`
and `handle_opportunity_delete_agentm`, none of which is a defined method,
so constructing the dispatcher raises `AttributeError` at the first of
them and no dispatch call can ever run. -/
theorem c9_dispatcher_init_raises :
    eventDispatcherInit = .error "handle_ticket_update_agentm" ∧
    definedDispatcherMethods.contains "handle_ticket_update_agentm" = false :=
  ⟨rfl, rfl⟩

/-- C3: the claim states the Router validates the delegation target and
coerces an unregistered one to FINISH, so `next` is always FINISH or a
registered graph node. Counterexample: for the decision
`{next: "technical_support", answer: ""}` — a value of the declared option
list — the Router passes the target through verbatim; the returned `next`
is neither FINISH nor one of the node names registered by `build_graph`,
and no coercion or message occurs. -/
theorem c3_no_target_validation :
    supervisor_node (fun _ => .args ⟨some "technical_support", some ""⟩) stateHi =
      .ok ⟨[⟨none, "hi"⟩], some "technical_support", some .DIRECT_API⟩ ∧
    graphAgents.contains "technical_support" = false ∧
    some "technical_support" ≠ (some "FINISH" : Option String) :=
  ⟨rfl, rfl, by decide⟩

/-- C3 (amended): the Router performs no validation and returns the
decision target verbatim; its output `next` is confined to the declared
option list `{FINISH} ∪ members` only under the assumption that every
delegating decision of the classifier draws its `next` from that list —
and even then the members `technical_support` and `diagnostic_agent` are
not registered graph nodes. -/
theorem c3_next_verbatim_within_options
    (classify : AgentState → FunctionCallResult) (state s1 : AgentState)
    (hcl : ∀ s a, classify s = .args a → stripStr (a.answer.getD "") = "" →
        a.next ∈ options.map some)
    (hok : supervisor_node classify state = .ok s1) :
    s1.next ∈ options.map some := by
  unfold supervisor_node at hok
  rcases hget : state.messages.getLast? with _ | last <;> rw [hget] at hok
  · cases hok
  · by_cases hh : hasHandoff last = true
    · simp only [hh, if_true] at hok
      cases hok
      exact (by decide : some "diagnostic_agent" ∈ List.map some options)
    · rw [Bool.not_eq_true] at hh
      simp only [hh, Bool.false_eq_true, if_false] at hok
      by_cases hc : notMeCount state.messages ≥ members.length
      · simp only [hc, if_true] at hok
        cases hok
        exact (by decide : some "FINISH" ∈ List.map some options)
      · simp only [hc, if_false] at hok
        rcases hcls : classify { state with messages := truncateMessages state.messages }
          with _ | _ | _ | a <;> simp only [hcls] at hok
        · cases hok
          exact (by decide : some "FINISH" ∈ List.map some options)
        · cases hok
          exact (by decide : some "FINISH" ∈ List.map some options)
        · cases hok
        · by_cases ha : stripStr (a.answer.getD "") ≠ ""
          · rw [if_pos ha] at hok
            cases hok
            exact (by decide : some "FINISH" ∈ List.map some options)
          · rw [if_neg ha] at hok
            cases hok
            rw [Ne, Decidable.not_not] at ha
            exact hcl _ a hcls ha

/-- C3 witness: the amended theorem applied to a classifier that respects
the declared option list. -/
theorem c3_next_verbatim_within_options_witness :
    (⟨[⟨none, "hi"⟩], some "customer_support", some .DIRECT_API⟩ : AgentState).next ∈
      options.map some :=
  c3_next_verbatim_within_options
    (fun _ => .args ⟨some "customer_support", some ""⟩) stateHi
    ⟨[⟨none, "hi"⟩], some "customer_support", some .DIRECT_API⟩
    (fun _ a h _ => by cases h; decide) rfl

/-- Helper lemma: counting a disjunction is at most the sum of the counts. -/
theorem countP_or_le {α : Type} (l : List α) (p q : α → Bool) :
    l.countP (fun x => p x || q x) ≤ l.countP p + l.countP q := by
  induction l with
  | nil => simp
  | cons x t ih =>
    simp only [List.countP_cons]
    cases hp : p x <;> cases hq : q x <;> simp [hp, hq] <;> omega

/-- Helper lemma: one message makes the per-handler decline predicate true
for at most one member, and only when the message is a member-authored
`NOT_ME`. -/
theorem declined_members_le (m : Message) :
    members.countP (fun h => m.name == some h && m.content == "NOT_ME") ≤
      (if isNotMeFromMember m then 1 else 0) := by
  obtain ⟨n, c⟩ := m
  cases n with
  | none =>
    simp [members, List.countP, List.countP.go]
  | some s =>
    by_cases hc : c = "NOT_ME"
    · subst hc
      by_cases h1 : s = "customer_support"
      · subst h1; decide
      · by_cases h2 : s = "sales_manager"
        · subst h2; decide
        · by_cases h3 : s = "technical_support"
          · subst h3; decide
          · by_cases h4 : s = "diagnostic_agent"
            · subst h4; decide
            · have b1 : (s == "customer_support") = false := beq_eq_false_iff_ne.mpr h1
              have b2 : (s == "sales_manager") = false := beq_eq_false_iff_ne.mpr h2
              have b3 : (s == "technical_support") = false := beq_eq_false_iff_ne.mpr h3
              have b4 : (s == "diagnostic_agent") = false := beq_eq_false_iff_ne.mpr h4
              simp [members, List.countP, List.countP.go, isNotMeFromMember,
                    isMemberName, List.contains, List.elem, b1, b2, b3, b4]
    · have hcb : (c == "NOT_ME") = false := beq_eq_false_iff_ne.mpr hc
      simp [hcb, isNotMeFromMember, List.countP, List.countP.go, members]

/-- C4: the claim states the tally equals the number of distinct
registered handlers with a declined-sentinel message and never exceeds
`|members|`. Counterexample: with one handler declining five times the
code tally (a count over messages, with multiplicity) is 5, the distinct
count is 1, and the tally exceeds `|members| = 4`. -/
theorem c4_tally_counts_multiplicity :
    notMeCount repeatDecline = 5 ∧
    distinctDeclinedHandlers repeatDecline = 1 ∧
    notMeCount repeatDecline ≠ distinctDeclinedHandlers repeatDecline ∧
    ¬notMeCount repeatDecline ≤ members.length := by
  refine ⟨?_, ?_, ?_, ?_⟩ <;> decide

/-- C4 (amended): the Router tally counts member-authored `NOT_ME`
messages with multiplicity; it is always at least the number of distinct
registered handlers that have declined (with equality when each handler
declines at most once), and it may exceed `|members|`. -/
theorem c4_distinct_le_tally (msgs : List Message) :
    distinctDeclinedHandlers msgs ≤ notMeCount msgs := by
  induction msgs with
  | nil => decide
  | cons m t ih =>
    have h1 : distinctDeclinedHandlers (m :: t) =
        members.countP (fun h =>
          (m.name == some h && m.content == "NOT_ME") ||
          t.any (fun x => x.name == some h && x.content == "NOT_ME")) := by
      simp [distinctDeclinedHandlers, List.any_cons]
    have h2 := countP_or_le members
      (fun h => m.name == some h && m.content == "NOT_ME")
      (fun h => t.any (fun x => x.name == some h && x.content == "NOT_ME"))
    have h3 := declined_members_le m
    have h4 : notMeCount (m :: t) =
        notMeCount t + if isNotMeFromMember m then 1 else 0 := by
      simp [notMeCount, List.countP_cons]
    have h5 : distinctDeclinedHandlers t =
        members.countP (fun h =>
          t.any (fun x => x.name == some h && x.content == "NOT_ME")) := rfl
    rw [h5] at ih
    rw [h1, h4]
    cases hm : isNotMeFromMember m <;> rw [hm] at h3 <;> simp only [if_true, if_false] at * <;>
      omega

/-- Helper lemma: the truncated history never exceeds the window. -/
theorem truncate_length_le (msgs : List Message) :
    (truncateMessages msgs).length ≤ message_history := by
  have hm : message_history = 5 := rfl
  unfold truncateMessages
  by_cases h : msgs.length > message_history
  · rw [if_pos h, List.length_drop]
    omega
  · rw [if_neg h]
    omega

/-- C5: the claim states that messages older than the window are still
present in the state the Router returns. Counterexample: on a six-message
history and a delegating decision, the Router returns a state containing
only the five most recent messages — the oldest message is present in the
input and absent from the output. -/
theorem c5_truncation_destructive :
    longState.messages.length > message_history ∧
    supervisor_node (fun _ => .args ⟨some "customer_support", some ""⟩) longState =
      .ok ⟨[⟨none, "m1"⟩, ⟨none, "m2"⟩, ⟨none, "m3"⟩, ⟨none, "m4"⟩, ⟨none, "m5"⟩],
           some "customer_support", some .DIRECT_API⟩ ∧
    (⟨none, "m0"⟩ : Message) ∈ longState.messages ∧
    (⟨none, "m0"⟩ : Message) ∉
      [(⟨none, "m1"⟩ : Message), ⟨none, "m2"⟩, ⟨none, "m3"⟩, ⟨none, "m4"⟩, ⟨none, "m5"⟩] :=
  ⟨by decide, rfl, by decide, by decide⟩

/-- C5 (amended): the Router does pass only the 5-message tail window to
the classifier (its result depends on the classifier only through the
truncated state), but the truncation is destructive — on the classifier
path the returned state starts with exactly the window (older messages
are dropped) and carries at most one appended message on top of it. -/
theorem c5_window_view :
    (∀ (c1 c2 : AgentState → FunctionCallResult) (state : AgentState),
      c1 { state with messages := truncateMessages state.messages } =
        c2 { state with messages := truncateMessages state.messages } →
      supervisor_node c1 state = supervisor_node c2 state) ∧
    (∀ (classify : AgentState → FunctionCallResult) (state s1 : AgentState)
       (last : Message),
      state.messages.getLast? = some last →
      hasHandoff last = false →
      notMeCount state.messages < members.length →
      supervisor_node classify state = .ok s1 →
      truncateMessages state.messages <+: s1.messages ∧
        s1.messages.length ≤ message_history + 1) := by
  constructor
  · intro c1 c2 state h
    simp only [supervisor_node, h]
  · intro classify state s1 last hget hh hcl hok
    unfold supervisor_node at hok
    rw [hget] at hok
    simp only [hh, Bool.false_eq_true, if_false] at hok
    have hge : ¬notMeCount state.messages ≥ members.length := by omega
    simp only [hge, if_false] at hok
    have hlen := truncate_length_le state.messages
    rcases hcls : classify { state with messages := truncateMessages state.messages }
      with _ | _ | _ | a <;> simp only [hcls] at hok
    · cases hok
      refine ⟨List.prefix_append _ _, ?_⟩
      simp only [List.length_append, List.length_cons, List.length_nil]
      omega
    · cases hok
      refine ⟨List.prefix_append _ _, ?_⟩
      simp only [List.length_append, List.length_cons, List.length_nil]
      omega
    · cases hok
    · by_cases ha : stripStr (a.answer.getD "") ≠ ""
      · rw [if_pos ha] at hok
        cases hok
        refine ⟨List.prefix_append _ _, ?_⟩
        simp only [List.length_append, List.length_cons, List.length_nil]
        omega
      · rw [if_neg ha] at hok
        cases hok
        refine ⟨List.prefix_refl _, ?_⟩
        show (truncateMessages state.messages).length ≤ message_history + 1
        omega

/-- C5 witness: the amended theorem at a six-message history — a
classifier probing the (truncated) input length agrees with a constant
one, and the returned history extends the five-message window by the one
appended supervisor message. -/
theorem c5_window_view_witness :
    supervisor_node
        (fun s => if s.messages.length = message_history then .absent else .badJson)
        longState =
      supervisor_node (fun _ => .absent) longState ∧
    (truncateMessages longState.messages <+:
        [(⟨none, "m1"⟩ : Message), ⟨none, "m2"⟩, ⟨none, "m3"⟩, ⟨none, "m4"⟩,
         ⟨none, "m5"⟩, ⟨some "supervisor", couldNotUnderstand⟩] ∧
      ([(⟨none, "m1"⟩ : Message), ⟨none, "m2"⟩, ⟨none, "m3"⟩, ⟨none, "m4"⟩,
        ⟨none, "m5"⟩, ⟨some "supervisor", couldNotUnderstand⟩] : List Message).length ≤
        message_history + 1) := by
  constructor
  · exact c5_window_view.1
      (fun s => if s.messages.length = message_history then .absent else .badJson)
      (fun _ => .absent) longState rfl
  · exact c5_window_view.2 (fun _ => .absent) longState
      ⟨[⟨none, "m1"⟩, ⟨none, "m2"⟩, ⟨none, "m3"⟩, ⟨none, "m4"⟩, ⟨none, "m5"⟩,
        ⟨some "supervisor", couldNotUnderstand⟩], some "FINISH", none⟩
      ⟨none, "m5"⟩ rfl rfl (by decide) rfl

/-- C6: the claim states that every unparseable classifier response —
including an argument payload `json.loads` cannot parse — makes the Router
return FINISH with a could-not-understand message and never raise.
Counterexample: on an unparseable argument payload the call raises
`json.JSONDecodeError` to the caller. -/
theorem c6_unparseable_arguments_raise :
    supervisor_node (fun _ => .badJson) stateHi =
      .error "json.decoder.JSONDecodeError" := rfl

/-- C6 (amended): for a classifier response with no function call or with
no arguments key, the Router returns — and does not raise — a state with
`next = FINISH` and one appended supervisor message saying the request
could not be understood; an arguments payload that fails to parse,
however, raises. -/
theorem c6_missing_decision_finishes
    (classify : AgentState → FunctionCallResult) (state : AgentState)
    (last : Message)
    (hget : state.messages.getLast? = some last)
    (hh : hasHandoff last = false)
    (hc : notMeCount state.messages < members.length)
    (hcls : classify { state with messages := truncateMessages state.messages } = .absent ∨
        classify { state with messages := truncateMessages state.messages } = .noArguments) :
    supervisor_node classify state =
      .ok { state with
            next := some "FINISH",
            messages := truncateMessages state.messages ++
              [mkMsg couldNotUnderstand "supervisor"] } := by
  unfold supervisor_node
  rw [hget]
  simp only [hh, Bool.false_eq_true, if_false]
  have hge : ¬notMeCount state.messages ≥ members.length := by omega
  rcases hcls with hcls | hcls <;> simp only [hge, if_false, hcls]

/-- C6 witness: the amended theorem at a concrete state with a classifier
returning a function call without arguments. -/
theorem c6_missing_decision_finishes_witness :
    supervisor_node (fun _ => .noArguments) stateHi =
      .ok { stateHi with
            next := some "FINISH",
            messages := truncateMessages stateHi.messages ++
              [mkMsg couldNotUnderstand "supervisor"] } :=
  c6_missing_decision_finishes (fun _ => .noArguments) stateHi ⟨none, "hi"⟩
    rfl rfl (by decide) (Or.inr rfl)

/-- C7: the claim states that a handler-authored last message embedding
`next: X` makes the Router set `next = X` without classification, for
every registered peer X. Counterexample: for `next: sales_manager` the
Router ignores the instruction, consults the classifier (here returning
nothing parseable) and finishes; `next` is not `sales_manager`. -/
theorem c7_only_diagnostic_marker :
    supervisor_node (fun _ => .absent) handoffOther =
      .ok ⟨[⟨none, "issue"⟩, ⟨some "technical_support", "next: sales_manager"⟩,
            ⟨some "supervisor", couldNotUnderstand⟩], some "FINISH", none⟩ ∧
    (some "FINISH" : Option String) ≠ some "sales_manager" :=
  ⟨rfl, by decide⟩

/-- C7 (amended): the only honored routing instruction is the literal
marker `next: diagnostic_agent` (substring of the lowercased content of a
member-authored last message); in that case the Router sets
`next = diagnostic_agent` without consulting the classifier and without
appending a message. -/
theorem c7_diagnostic_handoff
    (classify : AgentState → FunctionCallResult) (state : AgentState)
    (last : Message)
    (hget : state.messages.getLast? = some last)
    (hh : hasHandoff last = true) :
    supervisor_node classify state =
      .ok { state with next := some "diagnostic_agent" } := by
  unfold supervisor_node
  rw [hget]
  simp only [hh, if_true]

/-- C7 witness: the amended theorem at a concrete handoff state, with a
classifier that would raise if it were consulted. -/
theorem c7_diagnostic_handoff_witness :
    supervisor_node (fun _ => .badJson) diagState =
      .ok { diagState with next := some "diagnostic_agent" } :=
  c7_diagnostic_handoff (fun _ => .badJson) diagState
    ⟨some "technical_support", "I need help. next: diagnostic_agent"⟩ rfl (by decide)

/-- C8: the claim states that any decision whose `answer` field is a
non-empty string makes the Router finish with that answer appended.
Counterexample: the single-space answer `" "` is a non-empty string, yet
the Router strips it to empty and takes the delegation branch instead —
no message is appended and `next` is the delegation target. -/
theorem c8_whitespace_answer_delegates :
    (" " : String) ≠ "" ∧
    supervisor_node (fun _ => .args ⟨some "customer_support", some " "⟩) stateHi =
      .ok ⟨[⟨none, "hi"⟩], some "customer_support", some .DIRECT_API⟩ ∧
    (some "customer_support" : Option String) ≠ some "FINISH" :=
  ⟨by decide, rfl, by decide⟩

/-- C8 (amended): for every decision whose `answer` strips to a non-empty
string, the Router appends exactly one supervisor message whose content is
the stripped answer and sets `next = FINISH`, regardless of the decision's
`next` field (which is unconstrained here). -/
theorem c8_nonblank_answer_finishes
    (classify : AgentState → FunctionCallResult) (state : AgentState)
    (last : Message) (a : RouteArgs)
    (hget : state.messages.getLast? = some last)
    (hh : hasHandoff last = false)
    (hc : notMeCount state.messages < members.length)
    (hcls : classify { state with messages := truncateMessages state.messages } = .args a)
    (ha : stripStr (a.answer.getD "") ≠ "") :
    supervisor_node classify state =
      .ok { state with
            messages := truncateMessages state.messages ++
              [mkMsg (stripStr (a.answer.getD "")) "supervisor"],
            next := some "FINISH" } := by
  unfold supervisor_node
  rw [hget]
  simp only [hh, Bool.false_eq_true, if_false]
  have hge : ¬notMeCount state.messages ≥ members.length := by omega
  simp only [hge, if_false, hcls]
  rw [if_pos ha]

/-- C8 witness: the amended theorem at a decision carrying both a
delegation target and a padded answer: the answer wins and is stripped. -/
theorem c8_nonblank_answer_finishes_witness :
    supervisor_node (fun _ => .args ⟨some "sales_manager", some " Hello there "⟩) stateHi =
      .ok { stateHi with
            messages := truncateMessages stateHi.messages ++
              [mkMsg (stripStr ((some " Hello there ").getD "")) "supervisor"],
            next := some "FINISH" } :=
  c8_nonblank_answer_finishes (fun _ => .args ⟨some "sales_manager", some " Hello there "⟩)
    stateHi ⟨none, "hi"⟩ ⟨some "sales_manager", some " Hello there "⟩
    rfl rfl (by decide) rfl (by decide)

/-- C10: on the classifier-delegation branch (parsed decision, empty
stripped answer) the Router unconditionally overwrites
`communication_type` with `DIRECT_API`; on every other returning branch
(agent handoff, loop exhaustion, malformed decision, direct answer) the
field is returned unchanged. -/
theorem c10_comm_type_frame
    (classify : AgentState → FunctionCallResult) (state s1 : AgentState)
    (hok : supervisor_node classify state = .ok s1) :
    s1.communication_type =
      if delegationTaken classify state then some CommunicationType.DIRECT_API
      else state.communication_type := by
  unfold supervisor_node at hok
  unfold delegationTaken
  rcases hget : state.messages.getLast? with _ | last <;> rw [hget] at hok
  · cases hok
  · by_cases hh : hasHandoff last = true
    · simp only [hh, if_true] at hok
      cases hok
      simp [hh]
    · rw [Bool.not_eq_true] at hh
      simp only [hh, Bool.false_eq_true, if_false] at hok
      by_cases hc : notMeCount state.messages ≥ members.length
      · simp only [hc, if_true] at hok
        cases hok
        have hnlt : ¬notMeCount state.messages < members.length := by omega
        simp [hh, hnlt]
      · simp only [hc, if_false] at hok
        have hlt : notMeCount state.messages < members.length := by omega
        rcases hcls : classify { state with messages := truncateMessages state.messages }
          with _ | _ | _ | a <;> simp only [hcls] at hok
        · cases hok
          simp [hh, hcls, hlt]
        · cases hok
          simp [hh, hcls, hlt]
        · cases hok
        · by_cases ha : stripStr (a.answer.getD "") ≠ ""
          · rw [if_pos ha] at hok
            cases hok
            have hbe : (stripStr (a.answer.getD "") == "") = false :=
              beq_eq_false_iff_ne.mpr ha
            simp [hh, hcls, hlt, hbe]
          · rw [if_neg ha] at hok
            cases hok
            rw [Ne, Decidable.not_not] at ha
            have hbe : (stripStr (a.answer.getD "") == "") = true := beq_iff_eq.mpr ha
            simp [hh, hcls, hlt, hbe]

/-- C10 witness: on a conversation created in the asynchronous mode and a
delegating decision, the returned `communication_type` is overwritten to
`DIRECT_API`. -/
theorem c10_comm_type_frame_witness :
    (⟨[⟨none, "hi"⟩], some "sales_manager", some .DIRECT_API⟩ : AgentState).communication_type =
      (if delegationTaken (fun _ => .args ⟨some "sales_manager", some ""⟩) asyncState
       then some CommunicationType.DIRECT_API else asyncState.communication_type) ∧
    delegationTaken (fun _ => .args ⟨some "sales_manager", some ""⟩) asyncState = true ∧
    asyncState.communication_type = some CommunicationType.ASYNC_QUEUE :=
  ⟨c10_comm_type_frame (fun _ => .args ⟨some "sales_manager", some ""⟩) asyncState
      ⟨[⟨none, "hi"⟩], some "sales_manager", some .DIRECT_API⟩ rfl,
   rfl, rfl⟩
